import Mathlib

/-!
Verification development for the OpAMP control plane
(`opamp-control-plane`): a shallow embedding, in Lean, of the agent
registry (`internal/registry/sqlite.go`), the configuration store,
resolver and merger (`internal/config/resolver.go`), the selector
matcher (`internal/config/selector.go`), the OTel structural validator
(`internal/config/validator.go`), and the session layer of the OpAMP
server (`internal/opamp/server.go`, the newer variant with top-level
`AgentDescription` / `RemoteConfigStatus` fields, which the design
notes take as authoritative).

Go byte slices are embedded as `List Nat` (byte values), Go
`map[string]T` as association lists `List (String × T)` (Go maps hold
at most one binding per key; code that relies on that carries an
explicit no-duplicate-keys hypothesis), timestamps as `Nat`, and
fallible operations as `Except String`.
-/

namespace OpampCP

/-- Association-list lookup, first binding wins (Go map read). -/
def lookupList {α : Type} : List (String × α) → String → Option α
  | [], _ => none
  | (k, v) :: rest, key => if k = key then some v else lookupList rest key

/-- Association-list insert-or-replace (Go map assignment `m[k] = v`):
replaces the first binding of `k`, appends when absent. -/
def upsertList {α : Type} : List (String × α) → String → α → List (String × α)
  | [], key, v => [(key, v)]
  | (k, w) :: rest, key, v =>
      if k = key then (key, v) :: rest else (k, w) :: upsertList rest key v

theorem lookupList_upsert_self {α : Type} (l : List (String × α)) (k : String) (v : α) :
    lookupList (upsertList l k v) k = some v := by
  induction l with
  | nil => simp [upsertList, lookupList]
  | cons hd tl ih =>
      by_cases h : hd.1 = k
      · simp [upsertList, lookupList, h]
      · simp only [upsertList, lookupList]
        rw [if_neg h, lookupList, if_neg h]
        exact ih

theorem lookupList_upsert_other {α : Type} (l : List (String × α)) (k k' : String) (v : α)
    (h : k ≠ k') : lookupList (upsertList l k v) k' = lookupList l k' := by
  induction l with
  | nil => simp [upsertList, lookupList, h]
  | cons hd tl ih =>
      by_cases hh : hd.1 = k
      · simp only [upsertList, lookupList, if_pos hh]
        rw [if_neg h, if_neg (hh ▸ h)]
      · simp only [upsertList, lookupList, if_neg hh]
        by_cases hk : hd.1 = k'
        · rw [if_pos hk, if_pos hk]
        · rw [if_neg hk, if_neg hk]
          exact ih

/-! ## Registry (`internal/registry/sqlite.go`)

One SQLite row of the `agents` table becomes one `AgentRow`; the table
becomes a `List AgentRow` keyed by `instanceUid` (the SQL primary
key).  SQL `UPDATE … WHERE instance_uid = ?` becomes a map over the
rows touching exactly the matching ones; `RowsAffected() == 0` becomes
"no row matches the key". -/

/-- Agent metadata, from `pkg/models` `AgentDescription`. -/
structure AgentDescription where
  identifyingAttributes : List (String × String)
  nonIdentifyingAttributes : List (String × String)
deriving DecidableEq, Repr

/-- Detailed apply status, from `pkg/models` `RemoteConfigStatus`. -/
structure RemoteConfigStatusRec where
  lastRemoteConfigHash : String
  status : String
  errorMessage : String
deriving DecidableEq, Repr

/-- One row of the `agents` table (see `migrate` in `sqlite.go`). -/
structure AgentRow where
  instanceUid : String
  agentDescription : AgentDescription
  labels : List (String × String)
  status : String
  lastSeen : Nat
  effectiveConfigName : String
  effectiveConfigHash : String
  configStatus : String
  remoteConfigStatus : Option RemoteConfigStatusRec
  capabilities : Nat
  createdAt : Nat
  updatedAt : Nat
deriving DecidableEq, Repr

/-- The in-memory `models.Agent` value passed to registry calls. -/
structure Agent where
  instanceUid : String
  agentDescription : AgentDescription
  labels : List (String × String)
  status : String
  lastSeen : Nat
  effectiveConfigName : String
  effectiveConfigHash : String
  configStatus : String
  remoteConfigStatus : Option RemoteConfigStatusRec
  capabilities : Nat
deriving DecidableEq, Repr

/-- The registry state: the rows of the `agents` table. -/
abbrev Registry := List AgentRow

/-- `SELECT … FROM agents WHERE instance_uid = ?` (first matching row). -/
def findRow : Registry → String → Option AgentRow
  | [], _ => none
  | r :: rest, uid => if r.instanceUid = uid then some r else findRow rest uid

/-- Whether some row has the given primary key. -/
def hasRow (db : Registry) (uid : String) : Bool :=
  db.any (fun r => r.instanceUid = uid)

/-- `RegisterAgent`: `INSERT … ON CONFLICT(instance_uid) DO UPDATE SET`
overwriting `agent_description`, `labels`, `status`,
`last_seen = excluded.last_seen`, `capabilities`,
`updated_at = excluded.updated_at`; the insert binds `last_seen`,
`created_at` and `updated_at` to `now`.  Returns the new table. -/
def registerAgent (now : Nat) (a : Agent) (db : Registry) : Registry :=
  if hasRow db a.instanceUid then
    db.map (fun r =>
      if r.instanceUid = a.instanceUid then
        { r with
          agentDescription := a.agentDescription
          labels := a.labels
          status := a.status
          lastSeen := now
          capabilities := a.capabilities
          updatedAt := now }
      else r)
  else
    db ++ [{ instanceUid := a.instanceUid
             agentDescription := a.agentDescription
             labels := a.labels
             status := a.status
             lastSeen := now
             effectiveConfigName := a.effectiveConfigName
             effectiveConfigHash := a.effectiveConfigHash
             configStatus := a.configStatus
             remoteConfigStatus := a.remoteConfigStatus
             capabilities := a.capabilities
             createdAt := now
             updatedAt := now }]

/-- `UpdateAgent`: `UPDATE agents SET … WHERE instance_uid = ?`
overwriting every mutable column (including `effective_config_hash`
and `config_status`), with `last_seen` taken from the passed agent and
`updated_at = now`; zero rows affected is the error
`agent not found: <uid>`. -/
def updateAgent (now : Nat) (a : Agent) (db : Registry) : Except String Registry :=
  let db' := db.map (fun r =>
    if r.instanceUid = a.instanceUid then
      { r with
        agentDescription := a.agentDescription
        labels := a.labels
        status := a.status
        lastSeen := a.lastSeen
        effectiveConfigName := a.effectiveConfigName
        effectiveConfigHash := a.effectiveConfigHash
        configStatus := a.configStatus
        remoteConfigStatus := a.remoteConfigStatus
        capabilities := a.capabilities
        updatedAt := now }
    else r)
  if hasRow db a.instanceUid then Except.ok db'
  else Except.error ("agent not found: " ++ a.instanceUid)

/-- `GetAgent`: `sql.ErrNoRows` is translated to `(nil, nil)` — a
missing row is a *successful* lookup returning no agent. -/
def getAgent (db : Registry) (uid : String) : Except String (Option AgentRow) :=
  Except.ok (findRow db uid)

/-- `UpdateAgentConfigStatus`: `UPDATE agents SET effective_config_hash
= ?, config_status = ?, updated_at = ? WHERE instance_uid = ?`; zero
rows affected is the error `agent not found: <uid>`.  Note that the
hash column is written together with *every* status value, not only
`pending`. -/
def updateAgentConfigStatus (now : Nat) (uid : String) (configHash : String)
    (status : String) (db : Registry) : Except String Registry :=
  let db' := db.map (fun r =>
    if r.instanceUid = uid then
      { r with effectiveConfigHash := configHash, configStatus := status, updatedAt := now }
    else r)
  if hasRow db uid then Except.ok db'
  else Except.error ("agent not found: " ++ uid)

/-- `RecordHeartbeat`: `UPDATE agents SET last_seen = ?, updated_at = ?
WHERE instance_uid = ?` with *no* rows-affected check — an unknown key
succeeds silently. -/
def recordHeartbeat (now : Nat) (uid : String) (db : Registry) : Except String Registry :=
  Except.ok (db.map (fun r =>
    if r.instanceUid = uid then { r with lastSeen := now, updatedAt := now } else r))

/-- `UpdateAgentStatus`: sets `status`, `last_seen`, `updated_at`;
zero rows affected is the error `agent not found: <uid>`. -/
def updateAgentStatus (now : Nat) (uid : String) (status : String)
    (db : Registry) : Except String Registry :=
  let db' := db.map (fun r =>
    if r.instanceUid = uid then
      { r with status := status, lastSeen := now, updatedAt := now }
    else r)
  if hasRow db uid then Except.ok db'
  else Except.error ("agent not found: " ++ uid)

/-! ## Session layer (`internal/opamp/server.go`, newer variant)

The per-message handler and the out-of-band push path.  Network sends
are modelled by an explicit success flag and by an ordered *event
trace*: each run of a handler yields, besides the new registry, the
temporal sequence of the two observable actions the specification
talks about — the registry write that records the new desired hash
with status `pending`, and the completion of the send of the
configuration to the agent.  In `handleMessage` the reply (with any
attached configuration) is transmitted by the framework *after* the
handler returns, so its send-completion event is last; in
`sendConfigToAgent` the code calls `conn.Send` first and updates the
registry only afterwards, so the order is reversed there. -/

/-- Resolved effective configuration, from `pkg/models` `EffectiveConfig`. -/
structure EffectiveConfig where
  name : String
  hash : String
  content : List Nat
  selectorName : String
deriving DecidableEq, Repr

/-- The observable actions of a configuration push, in temporal order. -/
inductive SendEvent where
  | registryMarkedPending (hash : String)
  | sendCompleted (hash : String)
deriving DecidableEq, Repr

/-- Every completed send of a configuration with hash `h` is preceded
in the trace by a registry write marking `h` pending. -/
def pendingBeforeSend (tr : List SendEvent) : Prop :=
  ∀ i h, tr.get? i = some (SendEvent.sendCompleted h) →
    ∃ j, j < i ∧ tr.get? j = some (SendEvent.registryMarkedPending h)

/-- The `protobufs.RemoteConfigStatuses` enum values the handler
distinguishes (`unset` stands for every value outside the three named
cases, which the `default` branch maps to `unknown`). -/
inductive RemoteConfigStatuses where
  | unset
  | applied
  | applying
  | failed
deriving DecidableEq, Repr

/-- The `switch status.Status` in `handleRemoteConfigStatus`. -/
def translateRemoteStatus : RemoteConfigStatuses → String
  | RemoteConfigStatuses.applied => "applied"
  | RemoteConfigStatuses.applying => "pending"
  | RemoteConfigStatuses.failed => "failed"
  | RemoteConfigStatuses.unset => "unknown"

/-- The `RemoteConfigStatus` sub-message of an agent-to-server message. -/
structure RemoteConfigStatusMsg where
  lastRemoteConfigHash : String
  status : RemoteConfigStatuses
  errorMessage : String
deriving DecidableEq, Repr

/-- `handleRemoteConfigStatus`: translates the reported status and
calls `UpdateAgentConfigStatus` with the *agent-reported* hash; a
registry error is logged and the state left as it was. -/
def handleRemoteConfigStatus (now : Nat) (uid : String) (rpt : RemoteConfigStatusMsg)
    (db : Registry) : Registry :=
  match updateAgentConfigStatus now uid rpt.lastRemoteConfigHash
      (translateRemoteStatus rpt.status) db with
  | Except.ok db' => db'
  | Except.error _ => db

/-- `protoToStringMap`: keeps only key-value pairs whose string value
is non-empty; later pairs overwrite earlier ones (Go map assignment). -/
def protoToStringMap (kvs : List (String × String)) : List (String × String) :=
  kvs.foldl (fun acc kv => if kv.2 ≠ "" then upsertList acc kv.1 kv.2 else acc) []

/-- The raw `AgentDescription` protobuf sub-message (attribute lists). -/
structure AgentDescriptionMsg where
  identifyingAttributes : List (String × String)
  nonIdentifyingAttributes : List (String × String)
deriving DecidableEq, Repr

/-- An agent-to-server message, restricted to the fields the newer
handler consumes. -/
structure AgentToServer where
  instanceUid : String
  agentDescription : Option AgentDescriptionMsg
  capabilities : Nat
  remoteConfigStatus : Option RemoteConfigStatusMsg
deriving DecidableEq, Repr

/-- `agentFromMessage`: builds a fresh `models.Agent` (Go zero values
for all unset fields); identifying attributes become the labels. -/
def agentFromMessage (msg : AgentToServer) : Agent :=
  let desc := match msg.agentDescription with
    | some d =>
        AgentDescription.mk (protoToStringMap d.identifyingAttributes)
          (protoToStringMap d.nonIdentifyingAttributes)
    | none => AgentDescription.mk [] []
  { instanceUid := msg.instanceUid
    agentDescription := desc
    labels := desc.identifyingAttributes
    status := "unknown"
    lastSeen := 0
    effectiveConfigName := ""
    effectiveConfigHash := ""
    configStatus := ""
    remoteConfigStatus := none
    capabilities := if msg.capabilities ≠ 0 then msg.capabilities else 0 }

/-- `handleAgentDescription`: looks the agent up, replaces its
description, merges the new identifying attributes into the existing
labels, and writes it back with `UpdateAgent` (errors logged only). -/
def handleAgentDescription (now : Nat) (uid : String) (d : AgentDescriptionMsg)
    (db : Registry) : Registry :=
  match findRow db uid with
  | none => db
  | some row =>
      let desc := AgentDescription.mk (protoToStringMap d.identifyingAttributes)
        (protoToStringMap d.nonIdentifyingAttributes)
      let labels := desc.identifyingAttributes.foldl
        (fun acc kv => upsertList acc kv.1 kv.2) row.labels
      let a : Agent :=
        { instanceUid := row.instanceUid
          agentDescription := desc
          labels := labels
          status := row.status
          lastSeen := row.lastSeen
          effectiveConfigName := row.effectiveConfigName
          effectiveConfigHash := row.effectiveConfigHash
          configStatus := row.configStatus
          remoteConfigStatus := row.remoteConfigStatus
          capabilities := row.capabilities }
      match updateAgent now a db with
      | Except.ok db' => db'
      | Except.error _ => db

/-- The configuration provider wired to `Resolver.Resolve`. -/
abbrev ConfigProvider := AgentRow → Except String (Option EffectiveConfig)

/-- The tail of `handleMessage` (its lines 543–579): look the agent up,
run the provider, and attach a configuration to the reply — marking
the registry `pending` — exactly when the resolved fingerprint differs
from the stored `effective_config_hash`.  The attached reply is sent
by the framework after the handler returns, hence the send-completion
event comes after the registry event. -/
def buildConfigResponseAux (provider : ConfigProvider) (now : Nat) (uid : String)
    (db : Registry) : Option AgentRow → Registry × Option EffectiveConfig × List SendEvent
  | none => (db, none, [])
  | some agent =>
      match provider agent with
      | Except.error _ => (db, none, [])
      | Except.ok none => (db, none, [])
      | Except.ok (some cfg) =>
          if cfg.hash ≠ agent.effectiveConfigHash then
            let db' := match updateAgentConfigStatus now uid cfg.hash "pending" db with
              | Except.ok d => d
              | Except.error _ => db
            (db', some cfg,
              [SendEvent.registryMarkedPending cfg.hash, SendEvent.sendCompleted cfg.hash])
          else (db, none, [])

/-- See `buildConfigResponseAux`: the branch on the `GetAgent` result. -/
def buildConfigResponse (provider : ConfigProvider) (now : Nat) (uid : String)
    (db : Registry) : Registry × Option EffectiveConfig × List SendEvent :=
  buildConfigResponseAux provider now uid db (findRow db uid)

/-- `handleMessage`: register on first contact, record a heartbeat,
process description and apply-status sub-messages, then conditionally
attach a new configuration to the reply. -/
def handleMessage (provider : ConfigProvider) (now : Nat) (sessions : List String)
    (msg : AgentToServer) (db : Registry) :
    List String × Registry × Option EffectiveConfig × List SendEvent :=
  let uid := msg.instanceUid
  let sessions1 := if sessions.contains uid then sessions else uid :: sessions
  let db1 :=
    if sessions.contains uid then db
    else registerAgent now { agentFromMessage msg with status := "connected" } db
  let db2 := match recordHeartbeat now uid db1 with
    | Except.ok d => d
    | Except.error _ => db1
  let db3 := match msg.agentDescription with
    | some d => handleAgentDescription now uid d db2
    | none => db2
  let db4 := match msg.remoteConfigStatus with
    | some rpt => handleRemoteConfigStatus now uid rpt db3
    | none => db3
  let res := buildConfigResponse provider now uid db4
  (sessions1, res.1, res.2.1, res.2.2)

/-- `sendConfigToAgent`: runs the provider, sends the configuration
over the connection (`sendOk` models the outcome of `conn.Send`), and
— only after a successful send — marks the registry `pending` for the
new hash.  There is *no* comparison against the stored hash. -/
def sendConfigToAgent (provider : ConfigProvider) (now : Nat) (agent : AgentRow)
    (sendOk : Bool) (db : Registry) : Registry × List SendEvent :=
  match provider agent with
  | Except.error _ => (db, [])
  | Except.ok none => (db, [])
  | Except.ok (some cfg) =>
      if sendOk then
        let db' := match updateAgentConfigStatus now agent.instanceUid cfg.hash "pending" db with
          | Except.ok d => d
          | Except.error _ => db
        (db', [SendEvent.sendCompleted cfg.hash, SendEvent.registryMarkedPending cfg.hash])
      else (db, [])

/-- `PushConfigToAgent`: a push to an unknown or disconnected agent is
a silent no-op; otherwise delegate to `sendConfigToAgent`. -/
def pushConfigToAgent (provider : ConfigProvider) (now : Nat) (sessions : List String)
    (uid : String) (sendOk : Bool) (db : Registry) : Registry × List SendEvent :=
  match findRow db uid with
  | none => (db, [])
  | some agent =>
      if sessions.contains uid then sendConfigToAgent provider now agent sendOk db
      else (db, [])

/-- `PushConfigToAll`: iterate the session table; for each session
whose agent is registered, run `sendConfigToAgent`.  The per-session
traces are concatenated in iteration order. -/
def pushConfigToAll (provider : ConfigProvider) (now : Nat) (sendOk : String → Bool) :
    List String → Registry → Registry × List SendEvent
  | [], db => (db, [])
  | uid :: rest, db =>
      let (db1, tr1) :=
        match findRow db uid with
        | none => (db, [])
        | some agent => sendConfigToAgent provider now agent (sendOk uid) db
      let (db2, tr2) := pushConfigToAll provider now sendOk rest db1
      (db2, tr1 ++ tr2)

/-! ## Selector matcher (`internal/config/selector.go`, newer variant) -/

/-- A config selector, from `pkg/models` `ConfigSelector`. -/
structure ConfigSelector where
  name : String
  matchLabels : List (String × String)
  config : String
  overlay : String
  priority : Int
deriving DecidableEq, Repr

/-- `matchesSelector`: an empty criteria set matches nothing;
otherwise every criteria pair must be met exactly (a Go map read of a
missing label key yields the zero value `""`). -/
def matchesSelector (labels : List (String × String)) (sel : ConfigSelector) : Bool :=
  if sel.matchLabels.isEmpty then false
  else sel.matchLabels.all (fun kv => (lookupList labels kv.1).getD "" = kv.2)

/-- `Match`: first selector in file order whose criteria hold. -/
def matchSelector (selectors : List ConfigSelector) (labels : List (String × String)) :
    Option ConfigSelector :=
  selectors.find? (fun sel => matchesSelector labels sel)

/-! ## Config store (`Resolver.LoadConfigs` in `internal/config/resolver.go`)

`LoadConfigs` mutates the resolver's fields *in place*, step by step,
under one lock: base file, then each overlay, then each agent config
file, then the selector file.  The embedding threads the state through
the same steps and returns the state as left behind together with the
error, if any — there is no rollback in the source. -/

/-- What reading one file of the configuration directory yields.
`absent` is `os.IsNotExist`; `readErr` is any other read failure. -/
inductive FileData where
  | absent
  | content (data : List Nat)
  | readErr
deriving DecidableEq, Repr

/-- The `agents/_selectors.yaml` file: may also fail YAML parsing. -/
inductive SelectorsFileData where
  | absent
  | readErr
  | parsed (selectors : List ConfigSelector)
  | malformed
deriving DecidableEq, Repr

/-- A configuration directory as the loader observes it: the base
file, the `collector.yaml` of each overlay subdirectory (in directory
order), the agent `*.yaml` files (in walk order, keyed by path
relative to `agents/`), and the selectors file. -/
structure ConfigDirFS where
  baseFile : FileData
  overlayEntries : List (String × FileData)
  agentFiles : List (String × FileData)
  selectorsFile : SelectorsFileData
deriving DecidableEq, Repr

/-- The mutable fields of the resolver guarded by its lock. -/
structure ResolverState where
  baseConfig : List Nat
  overlays : List (String × List Nat)
  agentConfigs : List (String × List Nat)
  selectors : List ConfigSelector
deriving DecidableEq, Repr

/-- The overlay loop of `LoadConfigs`: a readable
`overlays/<name>/collector.yaml` is stored under `<name>`; an
unreadable or missing one is silently skipped.  Existing entries for
other names are never removed. -/
def loadOverlaysStep (entries : List (String × FileData)) (st : ResolverState) :
    ResolverState :=
  entries.foldl (fun st e =>
    match e.2 with
    | FileData.content data => { st with overlays := upsertList st.overlays e.1 data }
    | _ => st) st

/-- The `filepath.WalkDir` loop of `LoadConfigs` over `agents/**/*.yaml`:
each readable file is stored under its relative path; the first read
failure aborts the walk with an error, keeping everything stored so
far.  (`absent` models entries the walk filter skips.) -/
def loadAgentsStep : List (String × FileData) → ResolverState →
    ResolverState × Option String
  | [], st => (st, none)
  | (p, FileData.content data) :: rest, st =>
      loadAgentsStep rest { st with agentConfigs := upsertList st.agentConfigs p data }
  | (p, FileData.readErr) :: _, st =>
      (st, some ("failed to read agent config " ++ p))
  | (_, FileData.absent) :: rest, st => loadAgentsStep rest st

/-- The selectors step of `LoadConfigs`: a parsed file *replaces* the
selector list (`matcher.UpdateSelectors`); a read or parse failure is
an error; a missing file is fine. -/
def loadSelectorsStep (f : SelectorsFileData) (st : ResolverState) :
    ResolverState × Option String :=
  match f with
  | SelectorsFileData.absent => (st, none)
  | SelectorsFileData.readErr => (st, some "failed to read selectors file")
  | SelectorsFileData.malformed => (st, some "failed to parse selectors file")
  | SelectorsFileData.parsed sels => ({ st with selectors := sels }, none)

/-- The part of `LoadConfigs` after the base step: overlays, agent
configs, selectors, in source order; the first failure returns with
the mutations made so far kept. -/
def loadRest (d : ConfigDirFS) (st1 : ResolverState) : ResolverState × Option String :=
  match loadAgentsStep d.agentFiles (loadOverlaysStep d.overlayEntries st1) with
  | (st3, some e) => (st3, some e)
  | (st3, none) => loadSelectorsStep d.selectorsFile st3

/-- `LoadConfigs`: base, overlays, agent configs, selectors, in that
order, mutating in place; the first failure returns with the mutations
made so far kept.  `none` in the second component means success. -/
def loadConfigs (d : ConfigDirFS) (st : ResolverState) : ResolverState × Option String :=
  match d.baseFile with
  | FileData.readErr => (st, some "failed to read base config")
  | FileData.absent => loadRest d st
  | FileData.content data => loadRest d { st with baseConfig := data }

/-! ## Fingerprints (`computeHash` in `internal/config/resolver.go`)

`computeHash` is `hex.EncodeToString(sha256.Sum256(content))`: the
SHA-256 digest of the content bytes rendered as lowercase
hexadecimal.  SHA-256 (FIPS 180-4) is embedded over byte lists with
`Nat` arithmetic taken modulo `2 ^ 32`. -/

/-- Addition modulo `2 ^ 32`. -/
def add32 (x y : Nat) : Nat := (x + y) % 4294967296

/-- Right rotation of a 32-bit word. -/
def rotr32 (n x : Nat) : Nat := ((x >>> n) ||| (x <<< (32 - n))) % 4294967296

/-- SHA-256 `Ch` function. -/
def sha256Ch (x y z : Nat) : Nat := (x &&& y) ^^^ ((x ^^^ 4294967295) &&& z)

/-- SHA-256 `Maj` function. -/
def sha256Maj (x y z : Nat) : Nat := (x &&& y) ^^^ (x &&& z) ^^^ (y &&& z)

/-- SHA-256 big sigma 0. -/
def sha256S0 (x : Nat) : Nat := rotr32 2 x ^^^ rotr32 13 x ^^^ rotr32 22 x

/-- SHA-256 big sigma 1. -/
def sha256S1 (x : Nat) : Nat := rotr32 6 x ^^^ rotr32 11 x ^^^ rotr32 25 x

/-- SHA-256 small sigma 0. -/
def sha256s0 (x : Nat) : Nat := rotr32 7 x ^^^ rotr32 18 x ^^^ (x >>> 3)

/-- SHA-256 small sigma 1. -/
def sha256s1 (x : Nat) : Nat := rotr32 17 x ^^^ rotr32 19 x ^^^ (x >>> 10)

/-- The 64 SHA-256 round constants (FIPS 180-4 §4.2.2, in decimal). -/
def sha256K : List Nat :=
  [1116352408, 1899447441, 3049323471, 3921009573,
   961987163, 1508970993, 2453635748, 2870763221,
   3624381080, 310598401, 607225278, 1426881987,
   1925078388, 2162078206, 2614888103, 3248222580,
   3835390401, 4022224774, 264347078, 604807628,
   770255983, 1249150122, 1555081692, 1996064986,
   2554220882, 2821834349, 2952996808, 3210313671,
   3336571891, 3584528711, 113926993, 338241895,
   666307205, 773529912, 1294757372, 1396182291,
   1695183700, 1986661051, 2177026350, 2456956037,
   2730485921, 2820302411, 3259730800, 3345764771,
   3516065817, 3600352804, 4094571909, 275423344,
   430227734, 506948616, 659060556, 883997877,
   958139571, 1322822218, 1537002063, 1747873779,
   1955562222, 2024104815, 2227730452, 2361852424,
   2428436474, 2756734187, 3204031479, 3329325298]

/-- The SHA-256 initial hash value (FIPS 180-4 §5.3.3, in decimal). -/
def sha256H0 : List Nat :=
  [1779033703, 3144134277, 1013904242, 2773480762,
   1359893119, 2600822924, 528734635, 1541459225]

/-- Big-endian byte rendering of `x` on `n` bytes. -/
def bytesBE (n x : Nat) : List Nat :=
  (List.range n).map (fun i => (x >>> (8 * (n - 1 - i))) % 256)

/-- SHA-256 message padding: `0x80`, zeros to 56 mod 64, then the
bit length on 8 big-endian bytes. -/
def sha256Pad (msg : List Nat) : List Nat :=
  let padZeros := (119 - msg.length % 64) % 64
  msg ++ [128] ++ List.replicate padZeros 0 ++ bytesBE 8 (8 * msg.length)

/-- Split a byte list into 64-byte blocks (structural recursion on a
fuel bound so that the kernel can evaluate it; the fuel `l.length`
always suffices since each step consumes 64 bytes). -/
def chunks64Fuel : Nat → List Nat → List (List Nat)
  | 0, _ => []
  | _, [] => []
  | fuel + 1, x :: xs => (x :: xs).take 64 :: chunks64Fuel fuel ((x :: xs).drop 64)

/-- Split a byte list into 64-byte blocks. -/
def chunks64 (l : List Nat) : List (List Nat) :=
  chunks64Fuel l.length l

/-- The 16 initial 32-bit words of one block. -/
def blockWords (block : List Nat) : List Nat :=
  (List.range 16).map (fun i =>
    ((block.get? (4 * i)).getD 0 % 256) <<< 24 +
    ((block.get? (4 * i + 1)).getD 0 % 256) <<< 16 +
    ((block.get? (4 * i + 2)).getD 0 % 256) <<< 8 +
    ((block.get? (4 * i + 3)).getD 0 % 256))

/-- Extend the 16 block words to the 64-entry message schedule. -/
def sha256Schedule (block : List Nat) : List Nat :=
  (List.range 48).foldl (fun w _ =>
    let g := fun i => (w.get? i).getD 0
    let n := w.length
    w ++ [add32 (add32 (sha256s1 (g (n - 2))) (g (n - 7)))
            (add32 (sha256s0 (g (n - 15))) (g (n - 16)))])
    (blockWords block)

/-- One round of the SHA-256 compression function. -/
def sha256Round (st : List Nat) (kw : Nat × Nat) : List Nat :=
  match st with
  | [a, b, c, d, e, f, g, h] =>
      let t1 := add32 (add32 (add32 h (sha256S1 e)) (add32 (sha256Ch e f g) kw.1)) kw.2
      let t2 := add32 (sha256S0 a) (sha256Maj a b c)
      [add32 t1 t2, a, b, c, add32 d t1, e, f, g]
  | other => other

/-- Process one 64-byte block into the running hash value. -/
def sha256Block (hv : List Nat) (block : List Nat) : List Nat :=
  let w := sha256Schedule block
  let st := (sha256K.zip w).foldl (fun st kw => sha256Round st (kw.1, kw.2)) hv
  (hv.zip st).map (fun p => add32 p.1 p.2)

/-- The SHA-256 digest (32 bytes) of a byte list. -/
def sha256 (msg : List Nat) : List Nat :=
  ((chunks64 (sha256Pad msg)).foldl sha256Block sha256H0).foldr
    (fun w acc => bytesBE 4 w ++ acc) []

/-- One lowercase hexadecimal digit: `0`–`9` then `a`–`f` (the
lowercase table `hex.EncodeToString` indexes). -/
def hexDigit (n : Nat) : Char :=
  if n < 10 then Char.ofNat (48 + n) else Char.ofNat (87 + n)

/-- `hex.EncodeToString`: two lowercase hex digits per byte. -/
def hexEncodeLower (bytes : List Nat) : String :=
  String.mk (bytes.foldr (fun b acc => hexDigit (b % 256 / 16) :: hexDigit (b % 16) :: acc) [])

/-- `Resolver.computeHash`: lowercase-hex SHA-256 of the content. -/
def computeHash (content : List Nat) : String :=
  hexEncodeLower (sha256 content)

/-! ## Merger (`Merge`, `MergeMultiple`, `deepMerge` in `resolver.go`)

Parsed YAML documents are embedded as a tree of scalars, sequences
and mappings; a Go `map[string]any` becomes an association list (Go
maps hold one binding per key, recorded by `wfMapEntries` where
needed).  `deepMerge` starts from a copy of the base map and applies
each overlay binding: when both sides hold mappings it recurses,
otherwise the overlay value replaces the base value wholesale. -/

/-- A parsed YAML value. -/
inductive Yaml where
  | nullV
  | boolV (b : Bool)
  | intV (n : Int)
  | strV (s : String)
  | seq (items : List Yaml)
  | map (entries : List (String × Yaml))

mutual

/-- How `deepMerge` combines the two values bound to one key: two
mappings are merged recursively, otherwise the overlay wins. -/
def mergeVal : Yaml → Yaml → Yaml
  | Yaml.map bm, Yaml.map om => Yaml.map (deepMerge bm om)
  | _, ov => ov
termination_by _ o => sizeOf o
decreasing_by
  all_goals simp_wf

/-- `deepMerge`: fold the overlay bindings into (a copy of) the base
map; an existing key is combined with `mergeVal`, a fresh key is
added. -/
def deepMerge (base : List (String × Yaml)) : List (String × Yaml) → List (String × Yaml)
  | [] => base
  | (k, v) :: rest =>
      match lookupList base k with
      | some bv => deepMerge (upsertList base k (mergeVal bv v)) rest
      | none => deepMerge (base ++ [(k, v)]) rest
termination_by l => sizeOf l
decreasing_by
  all_goals simp_wf
  all_goals omega

end

/-- Distinct keys at one mapping level. -/
def nodupKeys {α : Type} : List (String × α) → Bool
  | [] => true
  | (k, _) :: rest => !(rest.any (fun e => e.1 = k)) && nodupKeys rest

mutual

/-- A YAML value all of whose mappings have distinct keys (what
`yaml.Unmarshal` into `map[string]any` produces). -/
def wfY : Yaml → Bool
  | Yaml.map m => wfMapEntries m
  | _ => true
termination_by v => sizeOf v
decreasing_by
  all_goals simp_wf

/-- `wfY` on every entry of a mapping, plus key distinctness. -/
def wfMapEntries : List (String × Yaml) → Bool
  | [] => true
  | (k, v) :: rest => !(rest.any (fun e => e.1 = k)) && wfY v && wfMapEntries rest
termination_by l => sizeOf l
decreasing_by
  all_goals simp_wf
  all_goals omega

end

/-- `Merger.Merge` on raw bytes: empty-side shortcuts, then parse both
sides as mappings, deep-merge, and re-serialize.  The YAML byte codec
is external to this repository and is passed in as `parse`/`marshal`. -/
def mergeBytes (parse : List Nat → Except String (List (String × Yaml)))
    (marshal : List (String × Yaml) → List Nat)
    (base overlay : List Nat) : Except String (List Nat) :=
  if overlay.length = 0 then Except.ok base
  else if base.length = 0 then Except.ok overlay
  else
    match parse base with
    | Except.error e => Except.error ("failed to parse base config: " ++ e)
    | Except.ok bm =>
        match parse overlay with
        | Except.error e => Except.error ("failed to parse overlay config: " ++ e)
        | Except.ok om => Except.ok (marshal (deepMerge bm om))

/-- `Merger.MergeMultiple`: left fold of `Merge`; later inputs win. -/
def mergeMultiple (parse : List Nat → Except String (List (String × Yaml)))
    (marshal : List (String × Yaml) → List Nat) :
    List (List Nat) → Except String (List Nat)
  | [] => Except.ok []
  | c :: cs =>
      cs.foldl (fun acc next =>
        match acc with
        | Except.error e => Except.error e
        | Except.ok cur => mergeBytes parse marshal cur next) (Except.ok c)

/-! ## Resolver (`Resolve` in `resolver.go`) -/

/-- `Resolver.Resolve`: match the labels against the selectors; with
no match fall back to the base document (or nothing when the base is
empty); with a match merge base, named overlay (a *named but missing*
overlay is only warned about) and the selector's agent config, then
validate.  `validator` carries `ValidateYAML` and `ValidateOTelConfig`
when validation is configured. -/
def resolve (parse : List Nat → Except String (List (String × Yaml)))
    (marshal : List (String × Yaml) → List Nat)
    (validator : Option ((List Nat → Except String Unit) × (List Nat → Except String Unit)))
    (st : ResolverState) (agentLabels : List (String × String)) :
    Except String (Option EffectiveConfig) :=
  match matchSelector st.selectors agentLabels with
  | none =>
      if st.baseConfig.length = 0 then Except.ok none
      else
        Except.ok (some
          { name := "base"
            hash := computeHash st.baseConfig
            content := st.baseConfig
            selectorName := "" })
  | some sel =>
      match lookupList st.agentConfigs sel.config with
      | none => Except.error ("config not found: " ++ sel.config)
      | some agentCfg =>
          let configs :=
            (if st.baseConfig.length > 0 then [st.baseConfig] else []) ++
            (if sel.overlay ≠ "" then
              match lookupList st.overlays sel.overlay with
              | some ov => [ov]
              | none => []
            else []) ++ [agentCfg]
          match mergeMultiple parse marshal configs with
          | Except.error e => Except.error ("failed to merge configs: " ++ e)
          | Except.ok merged =>
              let done : Except String (Option EffectiveConfig) :=
                Except.ok (some
                  { name := sel.name
                    hash := computeHash merged
                    content := merged
                    selectorName := sel.name })
              match validator with
              | none => done
              | some v =>
                  match v.1 merged with
                  | Except.error e =>
                      Except.error ("merged config validation failed: " ++ e)
                  | Except.ok _ =>
                      match v.2 merged with
                      | Except.error e =>
                          Except.error ("merged config OTel validation failed: " ++ e)
                      | Except.ok _ => done

/-! ## Validator (`ValidateOTelConfig` in `internal/config/validator.go`)

The document is embedded after `yaml.Unmarshal` into the `OTelConfig`
Go struct: component sections keep only their key sets (all the code
inspects), `service` and each pipeline are pointers, hence `Option`
(a pipeline entry whose YAML value is null unmarshals to a nil
pointer). -/

/-- One `service.pipelines` entry value. -/
structure PipelineCfg where
  receivers : List String
  processors : List String
  exporters : List String
deriving DecidableEq, Repr

/-- The `service` section. -/
structure ServiceCfg where
  extensions : List String
  pipelines : List (String × Option PipelineCfg)
deriving DecidableEq, Repr

/-- The parsed document: key sets of the component sections plus the
optional `service` section. -/
structure OTelConfigDoc where
  receivers : List String
  processors : List String
  exporters : List String
  extensionsDefined : List String
  service : Option ServiceCfg
deriving DecidableEq, Repr

/-- The per-pipeline loop of `ValidateOTelConfig`: a nil pipeline is
skipped (`continue`); otherwise at least one receiver and one exporter
are required, and in strict mode every referenced component (and every
`service.extensions` entry) must be defined at top level. -/
def checkPipelines (strict : Bool) (c : OTelConfigDoc) (svc : ServiceCfg) :
    List (String × Option PipelineCfg) → Except String Unit
  | [] => Except.ok ()
  | (_, none) :: rest => checkPipelines strict c svc rest
  | (name, some p) :: rest =>
      if p.receivers.isEmpty then
        Except.error ("pipeline " ++ name ++ " has no receivers")
      else if p.exporters.isEmpty then
        Except.error ("pipeline " ++ name ++ " has no exporters")
      else
        match (if strict then p.receivers.find? (fun r => !(c.receivers.contains r))
               else none) with
        | some r =>
            Except.error ("pipeline " ++ name ++ " references undefined receiver " ++ r)
        | none =>
        match (if strict then p.processors.find? (fun x => !(c.processors.contains x))
               else none) with
        | some x =>
            Except.error ("pipeline " ++ name ++ " references undefined processor " ++ x)
        | none =>
        match (if strict then p.exporters.find? (fun x => !(c.exporters.contains x))
               else none) with
        | some x =>
            Except.error ("pipeline " ++ name ++ " references undefined exporter " ++ x)
        | none =>
        match (if strict then svc.extensions.find? (fun e => !(c.extensionsDefined.contains e))
               else none) with
        | some e =>
            Except.error ("service references undefined extension " ++ e)
        | none => checkPipelines strict c svc rest

/-- `ValidateOTelConfig`: require a `service` section with a non-empty
`pipelines` mapping, then run the per-pipeline loop. -/
def validateOTelConfig (strict : Bool) (c : OTelConfigDoc) : Except String Unit :=
  match c.service with
  | none => Except.error "missing required service section"
  | some svc =>
      if svc.pipelines.isEmpty then
        Except.error "no pipelines defined in service section"
      else checkPipelines strict c svc svc.pipelines

/-! ## Supporting lemmas -/

theorem findRow_mapIf (db : Registry) (uid : String) (f : AgentRow → AgentRow)
    (hf : ∀ r, (f r).instanceUid = r.instanceUid) :
    findRow (db.map (fun r => if r.instanceUid = uid then f r else r)) uid
      = (findRow db uid).map f := by
  induction db with
  | nil => rfl
  | cons hd tl ih =>
      simp only [List.map_cons]
      by_cases h : hd.instanceUid = uid
      · rw [if_pos h]
        show (if (f hd).instanceUid = uid then some (f hd) else _) = _
        rw [if_pos ((hf hd).trans h), findRow, if_pos h]
        rfl
      · rw [if_neg h]
        show (if hd.instanceUid = uid then some hd else _) = _
        rw [if_neg h, findRow, if_neg h]
        exact ih

theorem hasRow_of_findRow {db : Registry} {uid : String} {r : AgentRow}
    (h : findRow db uid = some r) : hasRow db uid = true := by
  induction db with
  | nil => exact absurd h (by simp [findRow])
  | cons hd tl ih =>
      by_cases hh : hd.instanceUid = uid
      · simp [hasRow, hh]
      · rw [findRow, if_neg hh] at h
        have := ih h
        simp only [hasRow, List.any_cons] at this ⊢
        simp [this]

theorem findRow_eq_none (db : Registry) (uid : String)
    (h : ∀ r ∈ db, r.instanceUid ≠ uid) : findRow db uid = none := by
  induction db with
  | nil => rfl
  | cons hd tl ih =>
      rw [findRow, if_neg (h hd (by simp))]
      exact ih (fun r hr => h r (List.mem_cons_of_mem hd hr))

theorem hasRow_eq_false (db : Registry) (uid : String)
    (h : ∀ r ∈ db, r.instanceUid ≠ uid) : hasRow db uid = false := by
  induction db with
  | nil => rfl
  | cons hd tl ih =>
      simp only [hasRow, List.any_cons]
      rw [decide_eq_false (h hd (by simp))]
      have := ih (fun r hr => h r (List.mem_cons_of_mem hd hr))
      simp only [hasRow] at this
      simp [this]

theorem mapIf_id_of_absent (db : Registry) (uid : String) (f : AgentRow → AgentRow)
    (h : ∀ r ∈ db, r.instanceUid ≠ uid) :
    db.map (fun r => if r.instanceUid = uid then f r else r) = db := by
  induction db with
  | nil => rfl
  | cons hd tl ih =>
      simp only [List.map_cons]
      rw [if_neg (h hd (by simp))]
      rw [ih (fun r hr => h r (List.mem_cons_of_mem hd hr))]

/-! ## Sample fixtures used by witnesses and counterexamples -/

/-- A registered row whose push-owned fields are populated. -/
def sampleRow : AgentRow :=
  { instanceUid := "agent-1"
    agentDescription := AgentDescription.mk [("host", "n1")] []
    labels := [("role", "daemonset")]
    status := "connected"
    lastSeen := 1
    effectiveConfigName := "cfgA"
    effectiveConfigHash := "hash-old"
    configStatus := "applied"
    remoteConfigStatus := none
    capabilities := 5
    createdAt := 0
    updatedAt := 1 }

/-- A re-registration of the same agent (push-owned fields zeroed, as
`agentFromMessage` produces). -/
def sampleReRegistration : Agent :=
  { instanceUid := "agent-1"
    agentDescription := AgentDescription.mk [("host", "n2")] []
    labels := [("role", "deployment")]
    status := "connected"
    lastSeen := 0
    effectiveConfigName := ""
    effectiveConfigHash := ""
    configStatus := ""
    remoteConfigStatus := none
    capabilities := 9 }

/-! ## Claim C4 — `register_or_update` preserves the push-owned fields -/

/-- Claim C4: re-registering an existing `instance_uid` overwrites
description, labels, status, last_seen, capabilities and updated_at,
and leaves every other column of the stored row — in particular
`effective_config_hash` (the desired hash) and `config_status` (the
apply status) — exactly as it was. -/
theorem registerAgent_preserves_pushFields (now : Nat) (a : Agent) (db : Registry)
    (r : AgentRow) (h : findRow db a.instanceUid = some r) :
    findRow (registerAgent now a db) a.instanceUid = some
      { r with
        agentDescription := a.agentDescription
        labels := a.labels
        status := a.status
        lastSeen := now
        capabilities := a.capabilities
        updatedAt := now } := by
  have hhas := hasRow_of_findRow h
  rw [registerAgent, if_pos hhas,
    findRow_mapIf db a.instanceUid
      (fun r =>
        { r with
          agentDescription := a.agentDescription
          labels := a.labels
          status := a.status
          lastSeen := now
          capabilities := a.capabilities
          updatedAt := now })
      (fun _ => rfl),
    h]
  rfl

/-- Witness for C4: on `sampleRow`, re-registration updates the
metadata fields yet keeps `effectiveConfigHash = "hash-old"` and
`configStatus = "applied"`. -/
theorem registerAgent_preserves_pushFields_witness :
    findRow [sampleRow] "agent-1" = some sampleRow ∧
    findRow (registerAgent 7 sampleReRegistration [sampleRow]) "agent-1" = some
      { sampleRow with
        agentDescription := sampleReRegistration.agentDescription
        labels := sampleReRegistration.labels
        status := sampleReRegistration.status
        lastSeen := 7
        capabilities := sampleReRegistration.capabilities
        updatedAt := 7 } :=
  ⟨by decide, registerAgent_preserves_pushFields 7 sampleReRegistration [sampleRow] sampleRow
    (by decide)⟩

/-! ## Claim C7 — behaviour of registry operations on a missing key -/

/-- Counterexample to claim C7 (that `get`, `update` and
`record_heartbeat` all fail with a not-found error on a missing key):
on the empty registry, `GetAgent` returns a *successful* empty result
and `RecordHeartbeat` succeeds silently. -/
theorem missingKeyAlwaysErrors_false :
    getAgent [] "ghost" = Except.ok none ∧
    recordHeartbeat 3 "ghost" [] = Except.ok [] := by
  exact ⟨rfl, rfl⟩

/-- Claim C7 as amended: of the three operations, only `UpdateAgent`
fails (`agent not found`); `GetAgent` succeeds returning no record,
and `RecordHeartbeat` succeeds leaving the registry unchanged. -/
theorem missingKey_behavior (now : Nat) (a : Agent) (db : Registry)
    (h : ∀ r ∈ db, r.instanceUid ≠ a.instanceUid) :
    updateAgent now a db = Except.error ("agent not found: " ++ a.instanceUid) ∧
    getAgent db a.instanceUid = Except.ok none ∧
    recordHeartbeat now a.instanceUid db = Except.ok db := by
  refine ⟨?_, ?_, ?_⟩
  · rw [updateAgent]
    simp [hasRow_eq_false db a.instanceUid h]
  · rw [getAgent, findRow_eq_none db a.instanceUid h]
  · rw [recordHeartbeat,
      mapIf_id_of_absent db a.instanceUid
        (fun r => { r with lastSeen := now, updatedAt := now }) h]

/-- The unknown agent used to probe missing-key behaviour. -/
def sampleGhostAgent : Agent := { sampleReRegistration with instanceUid := "ghost" }

/-- Witness for C7 (amended): a one-row registry and a key it does not
contain. -/
theorem missingKey_behavior_witness :
    updateAgent 4 sampleGhostAgent [sampleRow] = Except.error "agent not found: ghost" ∧
    getAgent [sampleRow] "ghost" = Except.ok none ∧
    recordHeartbeat 4 "ghost" [sampleRow] = Except.ok [sampleRow] :=
  missingKey_behavior 4 sampleGhostAgent [sampleRow]
    (by intro r hr; simp only [List.mem_singleton] at hr; subst hr; decide)

/-! ## Claim C2 — when the stored desired hash can change -/

/-- An apply report from the agent: `applied`, with a hash that is not
the stored one. -/
def sampleApplyReport : RemoteConfigStatusMsg :=
  { lastRemoteConfigHash := "hash-reported"
    status := RemoteConfigStatuses.applied
    errorMessage := "" }

/-- Counterexample to claim C2 (that processing an apply report never
changes the stored `effective_config_hash`): an `applied` report
carrying hash `"hash-reported"` against a row storing `"hash-old"`
overwrites the stored hash together with the non-`pending` status. -/
theorem applyReportPreservesHash_false :
    sampleRow.effectiveConfigHash = "hash-old" ∧
    findRow (handleRemoteConfigStatus 9 "agent-1" sampleApplyReport [sampleRow]) "agent-1"
      = some { sampleRow with
                 effectiveConfigHash := "hash-reported"
                 configStatus := "applied"
                 updatedAt := 9 } := by
  exact ⟨rfl, by decide⟩

/-- Claim C2 as amended: `UpdateAgentConfigStatus` always writes
`effective_config_hash` and `config_status` together, for *every*
status value; in particular, processing an agent's apply report
overwrites the stored hash with the agent-reported hash while setting
the translated (`applied`/`failed`/…) status, so the stored desired
hash is not owned exclusively by the `pending` push path. -/
theorem applyReport_writesReportedHash (now : Nat) (uid : String)
    (rpt : RemoteConfigStatusMsg) (db : Registry) (r : AgentRow)
    (h : findRow db uid = some r) :
    findRow (handleRemoteConfigStatus now uid rpt db) uid = some
      { r with
        effectiveConfigHash := rpt.lastRemoteConfigHash
        configStatus := translateRemoteStatus rpt.status
        updatedAt := now } := by
  have hhas := hasRow_of_findRow h
  rw [handleRemoteConfigStatus, updateAgentConfigStatus]
  simp only [hhas, if_true]
  rw [findRow_mapIf db uid
    (fun r =>
      { r with
        effectiveConfigHash := rpt.lastRemoteConfigHash
        configStatus := translateRemoteStatus rpt.status
        updatedAt := now })
    (fun _ => rfl), h]
  rfl

/-- Witness for C2 (amended): a `failed` report rewrites the stored
hash to the reported one with status `failed`. -/
theorem applyReport_writesReportedHash_witness :
    findRow (handleRemoteConfigStatus 9 "agent-1"
        (RemoteConfigStatusMsg.mk "other-hash" RemoteConfigStatuses.failed "boom")
        [sampleRow]) "agent-1"
      = some { sampleRow with
                 effectiveConfigHash := "other-hash"
                 configStatus := "failed"
                 updatedAt := 9 } :=
  applyReport_writesReportedHash 9 "agent-1"
    (RemoteConfigStatusMsg.mk "other-hash" RemoteConfigStatuses.failed "boom")
    [sampleRow] sampleRow (by decide)

/-! ## Claims C1 and C5 — ordering and conditionality of pushes -/

theorem pendingBeforeSend_nil : pendingBeforeSend [] := by
  intro i h hi
  cases i <;> simp [List.get?] at hi

theorem pendingBeforeSend_pair (h : String) :
    pendingBeforeSend
      [SendEvent.registryMarkedPending h, SendEvent.sendCompleted h] := by
  intro i h' hi
  match i with
  | 0 => simp [List.get?] at hi
  | 1 =>
      refine ⟨0, by omega, ?_⟩
      simp only [List.get?, Option.some.injEq, SendEvent.sendCompleted.injEq] at hi
      rw [hi]
      rfl
  | n + 2 => simp [List.get?] at hi

/-- The reply path always records before the reply goes out: whatever
`buildConfigResponse` does, its trace places the `pending` registry
write before the send completion. -/
theorem pendingBeforeSend_buildConfigResponse (provider : ConfigProvider) (now : Nat)
    (uid : String) (db : Registry) :
    pendingBeforeSend (buildConfigResponse provider now uid db).2.2 := by
  rw [buildConfigResponse]
  cases hfind : findRow db uid with
  | none => exact pendingBeforeSend_nil
  | some agent =>
      rw [buildConfigResponseAux]
      cases hp : provider agent with
      | error e => exact pendingBeforeSend_nil
      | ok o =>
          cases o with
          | none => exact pendingBeforeSend_nil
          | some cfg =>
              by_cases hh : cfg.hash ≠ agent.effectiveConfigHash
              · simp only [if_pos hh]
                exact pendingBeforeSend_pair cfg.hash
              · simp only [if_neg hh]
                exact pendingBeforeSend_nil

/-- A provider resolving every agent to `sampleConfig`. -/
def sampleConfig : EffectiveConfig :=
  { name := "cfgB", hash := "hash-new", content := [1, 2, 3], selectorName := "sel-b" }

/-- The resolver output wired into the session layer in the samples. -/
def sampleProvider : ConfigProvider := fun _ => Except.ok (some sampleConfig)

/-- A bare message from `sampleRow`'s agent. -/
def sampleMsg : AgentToServer :=
  { instanceUid := "agent-1"
    agentDescription := none
    capabilities := 0
    remoteConfigStatus := none }

/-- Counterexample to claim C1 (that on the out-of-band push path the
registry records `desired_config_hash`/`pending` before the send
completes): in `sendConfigToAgent` the send completes first and the
registry write comes second, so the trace violates
`pendingBeforeSend`. -/
theorem pushPathSendsBeforeRecording_false :
    (sendConfigToAgent sampleProvider 9 sampleRow true [sampleRow]).2
      = [SendEvent.sendCompleted "hash-new", SendEvent.registryMarkedPending "hash-new"] ∧
    ¬ pendingBeforeSend (sendConfigToAgent sampleProvider 9 sampleRow true [sampleRow]).2 := by
  refine ⟨rfl, ?_⟩
  intro hp
  obtain ⟨j, hj, _⟩ := hp 0 "hash-new" rfl
  exact Nat.not_lt_zero j hj

/-- Claim C1 as amended: on the per-message reply path the registry is
marked `pending` before the reply (and so the configuration) is sent,
but on the out-of-band push path (`PushConfigToAgent` /
`PushConfigToAll` via `sendConfigToAgent`) the registry write happens
only *after* the send has completed successfully. -/
theorem configPush_recordOrder (provider : ConfigProvider) (now : Nat)
    (sessions : List String) (msg : AgentToServer) (db : Registry)
    (agent : AgentRow) (cfg : EffectiveConfig)
    (hp : provider agent = Except.ok (some cfg)) :
    pendingBeforeSend (handleMessage provider now sessions msg db).2.2.2 ∧
    (sendConfigToAgent provider now agent true db).2
      = [SendEvent.sendCompleted cfg.hash, SendEvent.registryMarkedPending cfg.hash] := by
  constructor
  · exact pendingBeforeSend_buildConfigResponse provider now msg.instanceUid _
  · rw [sendConfigToAgent, hp]
    rfl

/-- Witness for C1 (amended): concrete message and push runs. -/
theorem configPush_recordOrder_witness :
    pendingBeforeSend (handleMessage sampleProvider 9 [] sampleMsg [sampleRow]).2.2.2 ∧
    (sendConfigToAgent sampleProvider 9 sampleRow true [sampleRow]).2
      = [SendEvent.sendCompleted "hash-new", SendEvent.registryMarkedPending "hash-new"] :=
  configPush_recordOrder sampleProvider 9 [] sampleMsg [sampleRow] sampleRow sampleConfig rfl

/-- A row whose stored desired hash already equals the resolver
output. -/
def sampleRowUpToDate : AgentRow := { sampleRow with effectiveConfigHash := "hash-new" }

/-- Counterexample to claim C5 (that the out-of-band push path sends
only when the re-resolved fingerprint differs from the stored one): a
push to an agent whose stored hash already equals the resolved hash
still completes a send and re-marks the record `pending`. -/
theorem pushOnlyWhenHashDiffers_false :
    sampleRowUpToDate.effectiveConfigHash = sampleConfig.hash ∧
    (sendConfigToAgent sampleProvider 9 sampleRowUpToDate true [sampleRowUpToDate]).2
      = [SendEvent.sendCompleted "hash-new", SendEvent.registryMarkedPending "hash-new"] :=
  ⟨rfl, rfl⟩

/-- Claim C5 as amended: the out-of-band push path sends whenever the
resolver yields a configuration and the connection send succeeds —
with *no* fingerprint comparison (here even with an unchanged
fingerprint) — and marks the record `pending`; the fingerprint
comparison guards only the per-message reply path, which attaches
nothing when the resolved hash equals the stored one. -/
theorem pushPath_sendsUnconditionally (provider : ConfigProvider) (now : Nat)
    (uid : String) (db : Registry) (agent : AgentRow) (cfg : EffectiveConfig)
    (hfind : findRow db uid = some agent)
    (hp : provider agent = Except.ok (some cfg))
    (hsame : cfg.hash = agent.effectiveConfigHash) :
    (sendConfigToAgent provider now agent true db).2
      = [SendEvent.sendCompleted cfg.hash, SendEvent.registryMarkedPending cfg.hash] ∧
    (pushConfigToAll provider now (fun _ => true) [uid] db).2
      = [SendEvent.sendCompleted cfg.hash, SendEvent.registryMarkedPending cfg.hash] ∧
    (buildConfigResponse provider now uid db).2.1 = none ∧
    (buildConfigResponse provider now uid db).2.2 = [] := by
  have hsend : (sendConfigToAgent provider now agent true db).2
      = [SendEvent.sendCompleted cfg.hash, SendEvent.registryMarkedPending cfg.hash] := by
    rw [sendConfigToAgent, hp]
    rfl
  refine ⟨hsend, ?_, ?_, ?_⟩
  · rw [pushConfigToAll, hfind]
    cases hs : sendConfigToAgent provider now agent true db with
    | mk db1 tr1 =>
        have : tr1 = [SendEvent.sendCompleted cfg.hash,
            SendEvent.registryMarkedPending cfg.hash] := by
          have := congrArg Prod.snd hs
          simpa using this.symm.trans hsend
        simp only [pushConfigToAll, this, List.append_nil]
        exact hsend
  · rw [buildConfigResponse, hfind, buildConfigResponseAux, hp]
    simp [hsame]
  · rw [buildConfigResponse, hfind, buildConfigResponseAux, hp]
    simp [hsame]

/-- Witness for C5 (amended): the stored hash equals the resolved
hash, yet the push still sends while the reply path stays silent. -/
theorem pushPath_sendsUnconditionally_witness :
    (sendConfigToAgent sampleProvider 9 sampleRowUpToDate true [sampleRowUpToDate]).2
      = [SendEvent.sendCompleted "hash-new", SendEvent.registryMarkedPending "hash-new"] ∧
    (pushConfigToAll sampleProvider 9 (fun _ => true) ["agent-1"] [sampleRowUpToDate]).2
      = [SendEvent.sendCompleted "hash-new", SendEvent.registryMarkedPending "hash-new"] ∧
    (buildConfigResponse sampleProvider 9 "agent-1" [sampleRowUpToDate]).2.1 = none ∧
    (buildConfigResponse sampleProvider 9 "agent-1" [sampleRowUpToDate]).2.2 = [] :=
  pushPath_sendsUnconditionally sampleProvider 9 "agent-1" [sampleRowUpToDate]
    sampleRowUpToDate sampleConfig (by decide) rfl rfl

/-! ## Claims C3 and C6 — what a reload does and fails to do -/

theorem loadOverlaysStep_baseConfig (entries : List (String × FileData)) :
    ∀ st, (loadOverlaysStep entries st).baseConfig = st.baseConfig := by
  induction entries with
  | nil => intro st; rfl
  | cons e rest ih =>
      intro st
      rw [loadOverlaysStep, List.foldl_cons]
      cases e.2 <;> exact ih _

theorem loadOverlaysStep_agentConfigs (entries : List (String × FileData)) :
    ∀ st, (loadOverlaysStep entries st).agentConfigs = st.agentConfigs := by
  induction entries with
  | nil => intro st; rfl
  | cons e rest ih =>
      intro st
      rw [loadOverlaysStep, List.foldl_cons]
      cases e.2 <;> exact ih _

theorem loadOverlaysStep_selectors (entries : List (String × FileData)) :
    ∀ st, (loadOverlaysStep entries st).selectors = st.selectors := by
  induction entries with
  | nil => intro st; rfl
  | cons e rest ih =>
      intro st
      rw [loadOverlaysStep, List.foldl_cons]
      cases e.2 <;> exact ih _

theorem loadOverlaysStep_lookup_absent (entries : List (String × FileData)) (k : String) :
    ∀ st, (∀ e ∈ entries, e.1 ≠ k) →
      lookupList (loadOverlaysStep entries st).overlays k = lookupList st.overlays k := by
  induction entries with
  | nil => intro st _; rfl
  | cons e rest ih =>
      intro st h
      rw [loadOverlaysStep, List.foldl_cons]
      have hrest : ∀ x ∈ rest, x.1 ≠ k := fun x hx => h x (List.mem_cons_of_mem e hx)
      cases hd : e.2 with
      | content data =>
          have := ih { st with overlays := upsertList st.overlays e.1 data } hrest
          rw [loadOverlaysStep] at this
          rw [this]
          exact lookupList_upsert_other st.overlays e.1 k data (h e (by simp))
      | absent =>
          have := ih st hrest
          rw [loadOverlaysStep] at this
          exact this
      | readErr =>
          have := ih st hrest
          rw [loadOverlaysStep] at this
          exact this

theorem loadAgentsStep_baseConfig (files : List (String × FileData)) :
    ∀ st, (loadAgentsStep files st).1.baseConfig = st.baseConfig := by
  induction files with
  | nil => intro st; rfl
  | cons e rest ih =>
      intro st
      obtain ⟨p, fd⟩ := e
      cases fd with
      | content data => exact ih _
      | readErr => rfl
      | absent => exact ih _

theorem loadAgentsStep_overlays (files : List (String × FileData)) :
    ∀ st, (loadAgentsStep files st).1.overlays = st.overlays := by
  induction files with
  | nil => intro st; rfl
  | cons e rest ih =>
      intro st
      obtain ⟨p, fd⟩ := e
      cases fd with
      | content data => exact ih _
      | readErr => rfl
      | absent => exact ih _

theorem loadAgentsStep_selectors (files : List (String × FileData)) :
    ∀ st, (loadAgentsStep files st).1.selectors = st.selectors := by
  induction files with
  | nil => intro st; rfl
  | cons e rest ih =>
      intro st
      obtain ⟨p, fd⟩ := e
      cases fd with
      | content data => exact ih _
      | readErr => rfl
      | absent => exact ih _

theorem loadAgentsStep_lookup_absent (files : List (String × FileData)) (k : String) :
    ∀ st, (∀ e ∈ files, e.1 ≠ k) →
      lookupList (loadAgentsStep files st).1.agentConfigs k
        = lookupList st.agentConfigs k := by
  induction files with
  | nil => intro st _; rfl
  | cons e rest ih =>
      intro st h
      have hrest : ∀ x ∈ rest, x.1 ≠ k := fun x hx => h x (List.mem_cons_of_mem e hx)
      obtain ⟨p, fd⟩ := e
      cases fd with
      | content data =>
          rw [loadAgentsStep, ih _ hrest]
          exact lookupList_upsert_other st.agentConfigs p k data (h (p, FileData.content data) (by simp))
      | readErr => rfl
      | absent => exact ih st hrest

/-- The previous snapshot of the store, with one selector, one overlay
and one agent config. -/
def sampleSelector : ConfigSelector :=
  { name := "sel-a", matchLabels := [("role", "daemonset")],
    config := "teamA/app.yaml", overlay := "", priority := 0 }

/-- The state loaded from the previous commit. -/
def sampleOldState : ResolverState :=
  { baseConfig := [1]
    overlays := [("legacy", [7])]
    agentConfigs := [("gone.yaml", [8])]
    selectors := [sampleSelector] }

/-- A new directory whose base file reads fine but whose selectors
file fails to parse. -/
def sampleBadDir : ConfigDirFS :=
  { baseFile := FileData.content [2]
    overlayEntries := []
    agentFiles := []
    selectorsFile := SelectorsFileData.malformed }

/-- On a failing run, `loadRest` leaves the selector list untouched. -/
theorem loadRest_selectors_of_isSome (d : ConfigDirFS) (st1 : ResolverState)
    (h : (loadRest d st1).2.isSome = true) :
    (loadRest d st1).1.selectors = st1.selectors := by
  rw [loadRest] at h ⊢
  cases hAg : loadAgentsStep d.agentFiles (loadOverlaysStep d.overlayEntries st1) with
  | mk st3 err =>
      have hsel3 : st3.selectors = st1.selectors := by
        have h1 := loadAgentsStep_selectors d.agentFiles (loadOverlaysStep d.overlayEntries st1)
        rw [hAg] at h1
        rw [h1, loadOverlaysStep_selectors]
      cases err with
      | some e => exact hsel3
      | none =>
          cases hf : d.selectorsFile with
          | absent => exact hsel3
          | readErr => exact hsel3
          | malformed => exact hsel3
          | parsed sels =>
              rw [hAg, hf] at h
              simp [loadSelectorsStep] at h

/-- Counterexample to claim C3 (that a failed reload leaves the store
exactly as before): with a readable base file and a malformed
selectors file, `LoadConfigs` fails but the base document visible
afterwards is already the *new* one. -/
theorem loadFailureKeepsState_false :
    (loadConfigs sampleBadDir sampleOldState).2.isSome = true ∧
    (loadConfigs sampleBadDir sampleOldState).1.baseConfig = [2] ∧
    sampleOldState.baseConfig = [1] ∧
    (loadConfigs sampleBadDir sampleOldState).1 ≠ sampleOldState := by
  refine ⟨rfl, rfl, rfl, by decide⟩

/-- Claim C3 as amended: a failed `LoadConfigs` never rolls back — the
fields written before the failing step (base document, overlays, agent
configs) keep the newly read values — but the *selector list* is
always left exactly as in the previous snapshot, because it is only
replaced by the final step on success. -/
theorem loadFailure_selectorsUnchanged (d : ConfigDirFS) (st : ResolverState)
    (h : (loadConfigs d st).2.isSome = true) :
    (loadConfigs d st).1.selectors = st.selectors := by
  rw [loadConfigs] at h ⊢
  cases hb : d.baseFile with
  | readErr => rfl
  | absent =>
      rw [hb] at h
      exact loadRest_selectors_of_isSome d st h
  | content data =>
      rw [hb] at h
      exact loadRest_selectors_of_isSome d { st with baseConfig := data } h

/-- Witness for C3 (amended): the failing reload keeps the previous
selector list. -/
theorem loadFailure_selectorsUnchanged_witness :
    (loadConfigs sampleBadDir sampleOldState).1.selectors = [sampleSelector] :=
  loadFailure_selectorsUnchanged sampleBadDir sampleOldState (by decide)

/-- A new directory that loads successfully and contains neither the
old overlay nor the old agent config. -/
def sampleNewDir : ConfigDirFS :=
  { baseFile := FileData.content [2]
    overlayEntries := [("edge", FileData.content [9])]
    agentFiles := [("teamB/app.yaml", FileData.content [4])]
    selectorsFile := SelectorsFileData.parsed [sampleSelector] }

/-- Counterexample to claim C6 (that a successful reload makes the
visible document set exactly the new directory's): after a successful
load of `sampleNewDir` — which has no overlay `legacy` and no agent
config `gone.yaml` — both stale entries are still visible. -/
theorem reloadReplacesSnapshot_false :
    (loadConfigs sampleNewDir sampleOldState).2 = none ∧
    (∀ e ∈ sampleNewDir.overlayEntries, e.1 ≠ "legacy") ∧
    (∀ e ∈ sampleNewDir.agentFiles, e.1 ≠ "gone.yaml") ∧
    lookupList (loadConfigs sampleNewDir sampleOldState).1.overlays "legacy" = some [7] ∧
    lookupList (loadConfigs sampleNewDir sampleOldState).1.agentConfigs "gone.yaml"
      = some [8] := by
  refine ⟨rfl, ?_, ?_, rfl, rfl⟩ <;> decide

/-- Claim C6 as amended: a successful reload *replaces* the base
document and the selector list, but merely *upserts* into the overlay
and agent-config maps: entries of the previous snapshot whose key does
not occur in the new directory remain visible unchanged. -/
theorem loadRest_success (d : ConfigDirFS) (st1 : ResolverState)
    (sels : List ConfigSelector)
    (hs : d.selectorsFile = SelectorsFileData.parsed sels)
    (hok : (loadRest d st1).2 = none) :
    (loadRest d st1).1.baseConfig = st1.baseConfig ∧
    (loadRest d st1).1.selectors = sels ∧
    (∀ k, (∀ e ∈ d.overlayEntries, e.1 ≠ k) →
      lookupList (loadRest d st1).1.overlays k = lookupList st1.overlays k) ∧
    (∀ k, (∀ e ∈ d.agentFiles, e.1 ≠ k) →
      lookupList (loadRest d st1).1.agentConfigs k
        = lookupList st1.agentConfigs k) := by
  rw [loadRest] at hok ⊢
  cases hAg : loadAgentsStep d.agentFiles (loadOverlaysStep d.overlayEntries st1) with
  | mk st3 err =>
      cases err with
      | some e =>
          rw [hAg] at hok
          simp at hok
      | none =>
          have hres : (match ((st3 : ResolverState), (none : Option String)) with
              | (st3, some e) => (st3, some e)
              | (st3, none) => loadSelectorsStep d.selectorsFile st3)
              = loadSelectorsStep d.selectorsFile st3 := rfl
          rw [hres, hs, loadSelectorsStep]
          refine ⟨?_, rfl, ?_, ?_⟩
          · show st3.baseConfig = st1.baseConfig
            have h1 := loadAgentsStep_baseConfig d.agentFiles
              (loadOverlaysStep d.overlayEntries st1)
            rw [hAg] at h1
            rw [h1, loadOverlaysStep_baseConfig]
          · intro k hk
            show lookupList st3.overlays k = lookupList st1.overlays k
            have h1 := loadAgentsStep_overlays d.agentFiles
              (loadOverlaysStep d.overlayEntries st1)
            rw [hAg] at h1
            rw [h1]
            exact loadOverlaysStep_lookup_absent d.overlayEntries k st1 hk
          · intro k hk
            show lookupList st3.agentConfigs k = lookupList st1.agentConfigs k
            have h1 := loadAgentsStep_lookup_absent d.agentFiles k
              (loadOverlaysStep d.overlayEntries st1) hk
            rw [hAg] at h1
            rw [h1, loadOverlaysStep_agentConfigs]

/-- Claim C6 as amended (continued): composition at the `LoadConfigs`
level, starting from a readable base file. -/
theorem reload_upsertsSnapshot (d : ConfigDirFS) (st : ResolverState)
    (b : List Nat) (sels : List ConfigSelector)
    (hb : d.baseFile = FileData.content b)
    (hs : d.selectorsFile = SelectorsFileData.parsed sels)
    (hok : (loadConfigs d st).2 = none) :
    (loadConfigs d st).1.baseConfig = b ∧
    (loadConfigs d st).1.selectors = sels ∧
    (∀ k, (∀ e ∈ d.overlayEntries, e.1 ≠ k) →
      lookupList (loadConfigs d st).1.overlays k = lookupList st.overlays k) ∧
    (∀ k, (∀ e ∈ d.agentFiles, e.1 ≠ k) →
      lookupList (loadConfigs d st).1.agentConfigs k
        = lookupList st.agentConfigs k) := by
  have key : loadConfigs d st = loadRest d { st with baseConfig := b } := by
    rw [loadConfigs, hb]
  rw [key] at hok ⊢
  exact loadRest_success d { st with baseConfig := b } sels hs hok

/-- Witness for C6 (amended): the concrete reload keeps the stale
overlay while replacing base and selectors. -/
theorem reload_upsertsSnapshot_witness :
    (loadConfigs sampleNewDir sampleOldState).1.baseConfig = [2] ∧
    (loadConfigs sampleNewDir sampleOldState).1.selectors = [sampleSelector] ∧
    lookupList (loadConfigs sampleNewDir sampleOldState).1.overlays "legacy"
      = lookupList sampleOldState.overlays "legacy" := by
  have h := reload_upsertsSnapshot sampleNewDir sampleOldState [2] [sampleSelector]
    rfl rfl rfl
  exact ⟨h.1, h.2.1, h.2.2.1 "legacy" (by decide)⟩

/-! ## Claim C9 — what the pipeline well-formedness check accepts -/

/-- The per-pipeline loop accepts exactly the lists in which every
*non-nil* pipeline has at least one receiver and one exporter
(non-strict mode). -/
theorem checkPipelines_ok_iff (c : OTelConfigDoc) (svc : ServiceCfg)
    (l : List (String × Option PipelineCfg)) :
    checkPipelines false c svc l = Except.ok () ↔
      ∀ np ∈ l, ∀ p, np.2 = some p → p.receivers ≠ [] ∧ p.exporters ≠ [] := by
  induction l with
  | nil => simp [checkPipelines]
  | cons np rest ih =>
      obtain ⟨name, op⟩ := np
      cases op with
      | none =>
          rw [checkPipelines, ih]
          constructor
          · intro h np hmem p hp
            rcases List.mem_cons.mp hmem with heq | hmem
            · rw [heq] at hp
              simp at hp
            · exact h np hmem p hp
          · intro h np hmem p hp
            exact h np (List.mem_cons_of_mem _ hmem) p hp
      | some p =>
          rw [checkPipelines]
          by_cases hr : p.receivers = []
          · rw [if_pos (List.isEmpty_iff.mpr hr)]
            constructor
            · intro h
              simp at h
            · intro h
              exact absurd hr (h (name, some p) (by simp) p rfl).1
          · rw [if_neg (fun hc => hr (List.isEmpty_iff.mp hc))]
            by_cases he : p.exporters = []
            · rw [if_pos (List.isEmpty_iff.mpr he)]
              constructor
              · intro h
                simp at h
              · intro h
                exact absurd he (h (name, some p) (by simp) p rfl).2
            · rw [if_neg (fun hc => he (List.isEmpty_iff.mp hc))]
              have hred : (checkPipelines false c svc rest = Except.ok ()) ↔
                  ∀ np ∈ rest, ∀ q, np.2 = some q →
                    q.receivers ≠ [] ∧ q.exporters ≠ [] := ih
              constructor
              · intro h np hmem q hq
                rcases List.mem_cons.mp hmem with heq | hmem
                · rw [heq] at hq
                  obtain rfl : p = q := Option.some.inj hq
                  exact ⟨hr, he⟩
                · exact hred.mp h np hmem q hq
              · intro h
                exact hred.mpr (fun np hmem q hq => h np (List.mem_cons_of_mem _ hmem) q hq)

/-- A document whose only pipeline unmarshals to a nil pointer
(`pipelines: \x7btraces: null\x7d`). -/
def sampleNilPipelineDoc : OTelConfigDoc :=
  { receivers := []
    processors := []
    exporters := []
    extensionsDefined := []
    service := some { extensions := [], pipelines := [("traces", none)] } }

/-- Counterexample to claim C9 (that every accepted document has at
least one receiver and exporter in *every* pipeline of the mapping): a
document whose single pipeline entry is nil — so it defines no
receiver and no exporter — is accepted, because the loop skips nil
pipelines. -/
theorem validatorRejectsNilPipelines_false :
    validateOTelConfig false sampleNilPipelineDoc = Except.ok () ∧
    ∃ svc, sampleNilPipelineDoc.service = some svc ∧
      ("traces", (none : Option PipelineCfg)) ∈ svc.pipelines := by
  exact ⟨rfl, ⟨_, rfl, by decide⟩⟩

/-- Claim C9 as amended: in non-strict mode a document passes
`ValidateOTelConfig` exactly when it has a `service` section, a
non-empty `pipelines` mapping, and every pipeline *whose value is
non-nil* defines at least one receiver and at least one exporter; nil
pipeline entries are skipped rather than rejected. -/
theorem validateOTelConfig_characterization (c : OTelConfigDoc) :
    validateOTelConfig false c = Except.ok () ↔
      ∃ svc, c.service = some svc ∧ svc.pipelines ≠ [] ∧
        ∀ np ∈ svc.pipelines, ∀ p, np.2 = some p →
          p.receivers ≠ [] ∧ p.exporters ≠ [] := by
  cases hs : c.service with
  | none =>
      rw [validateOTelConfig, hs]
      constructor
      · intro h
        simp at h
      · intro ⟨svc, hsvc, _⟩
        cases hsvc
  | some svc =>
      have hv : validateOTelConfig false c
          = if svc.pipelines.isEmpty = true then
              Except.error "no pipelines defined in service section"
            else checkPipelines false c svc svc.pipelines := by
        rw [validateOTelConfig, hs]
      rw [hv]
      by_cases hp : svc.pipelines = []
      · rw [if_pos (List.isEmpty_iff.mpr hp)]
        constructor
        · intro h
          simp at h
        · intro ⟨svc2, hsvc2, hne, _⟩
          obtain rfl : svc = svc2 := Option.some.inj hsvc2
          exact absurd hp hne
      · rw [if_neg (fun hc => hp (List.isEmpty_iff.mp hc))]
        rw [checkPipelines_ok_iff]
        constructor
        · intro h
          exact ⟨svc, rfl, hp, h⟩
        · intro ⟨svc2, hsvc2, _, h⟩
          obtain rfl : svc = svc2 := Option.some.inj hsvc2
          exact h

/-! ## Claim C8 — `Resolve` with no matching selector -/

set_option maxRecDepth 10000 in
/-- FIPS 180-4 test vector: the embedded `computeHash` agrees with
`hex.EncodeToString(sha256.Sum256(…))` on `"abc"` (bytes 97 98 99). -/
theorem computeHash_abc_vector :
    computeHash [97, 98, 99]
      = "ba7816bf8f01cfea414140de5dae2223b00361a396177a9cb410ff61f20015ad" := by
  decide

/-- Claim C8: when the agent's labels match no selector, `Resolve`
returns nothing if the base document is empty, and otherwise an
effective configuration named `"base"` whose content is the base
document, whose fingerprint is the lowercase-hex SHA-256 of the base
document, and whose source selector name is empty. -/
theorem resolve_noMatch_baseFallback
    (parse : List Nat → Except String (List (String × Yaml)))
    (marshal : List (String × Yaml) → List Nat)
    (validator : Option ((List Nat → Except String Unit) × (List Nat → Except String Unit)))
    (st : ResolverState) (labels : List (String × String))
    (h : matchSelector st.selectors labels = none) :
    (st.baseConfig = [] → resolve parse marshal validator st labels = Except.ok none) ∧
    (st.baseConfig ≠ [] → resolve parse marshal validator st labels =
      Except.ok (some
        { name := "base"
          hash := hexEncodeLower (sha256 st.baseConfig)
          content := st.baseConfig
          selectorName := "" })) := by
  have hv : resolve parse marshal validator st labels
      = if st.baseConfig.length = 0 then Except.ok none
        else Except.ok (some
          { name := "base"
            hash := computeHash st.baseConfig
            content := st.baseConfig
            selectorName := "" }) := by
    rw [resolve, h]
  constructor
  · intro hb
    rw [hv, if_pos (by rw [hb]; rfl)]
  · intro hb
    rw [hv, if_neg (fun hc => hb (List.length_eq_zero.mp hc))]
    rfl

/-- The store snapshot used to exercise the no-match fallback: one
selector requiring `role = daemonset`, a non-empty base document. -/
def sampleNoMatchState : ResolverState :=
  { baseConfig := [1]
    overlays := []
    agentConfigs := []
    selectors := [sampleSelector] }

/-- Witness for C8: labels `role = deployment` match no selector, so
the base document comes back under the name `"base"` with its
lowercase-hex SHA-256 fingerprint. -/
theorem resolve_noMatch_baseFallback_witness :
    resolve (fun _ => Except.error "no parser") (fun _ => []) none sampleNoMatchState
        [("role", "deployment")]
      = Except.ok (some
          { name := "base"
            hash := hexEncodeLower (sha256 [1])
            content := [1]
            selectorName := "" }) :=
  (resolve_noMatch_baseFallback (fun _ => Except.error "no parser") (fun _ => []) none
    sampleNoMatchState [("role", "deployment")] (by decide)).2 (by decide)

/-! ## Claim C10 — deep-merge idempotence and pointwise behaviour -/

theorem lookupList_append_right {α : Type} (b l : List (String × α)) (k : String)
    (h : lookupList b k = none) : lookupList (b ++ l) k = lookupList l k := by
  induction b with
  | nil => rfl
  | cons hd tl ih =>
      rw [lookupList] at h
      by_cases hh : hd.1 = k
      · rw [if_pos hh] at h
        cases h
      · rw [if_neg hh] at h
        rw [List.cons_append]
        show (if hd.1 = k then some hd.2 else lookupList (tl ++ l) k) = lookupList l k
        rw [if_neg hh]
        exact ih h

theorem lookupList_append_left {α : Type} (b l : List (String × α)) (k : String) (v : α)
    (h : lookupList b k = some v) : lookupList (b ++ l) k = some v := by
  induction b with
  | nil => cases h
  | cons hd tl ih =>
      rw [lookupList] at h
      rw [List.cons_append]
      show (if hd.1 = k then some hd.2 else lookupList (tl ++ l) k) = some v
      by_cases hh : hd.1 = k
      · rw [if_pos hh] at h ⊢
        exact h
      · rw [if_neg hh] at h ⊢
        exact ih h

theorem lookupList_eq_none_of_any_false {α : Type} (l : List (String × α)) (k : String)
    (h : l.any (fun e => e.1 = k) = false) : lookupList l k = none := by
  induction l with
  | nil => rfl
  | cons hd tl ih =>
      rw [List.any_cons, Bool.or_eq_false_iff] at h
      rw [lookupList, if_neg (by simpa using h.1)]
      exact ih h.2

theorem upsertList_self {α : Type} (l : List (String × α)) (k : String) (v : α)
    (h : lookupList l k = some v) : upsertList l k v = l := by
  induction l with
  | nil => cases h
  | cons hd tl ih =>
      rw [lookupList] at h
      by_cases hh : hd.1 = k
      · rw [if_pos hh] at h
        obtain rfl : hd.2 = v := Option.some.inj h
        rw [upsertList, if_pos hh, ← hh]
      · rw [if_neg hh] at h
        rw [upsertList, if_neg hh, ih h]

/-- `nodupKeys` of a cons, unpacked. -/
theorem nodupKeys_cons {α : Type} {k : String} {v : α} {rest : List (String × α)}
    (h : nodupKeys ((k, v) :: rest) = true) :
    rest.any (fun e => e.1 = k) = false ∧ nodupKeys rest = true := by
  rw [nodupKeys, Bool.and_eq_true, Bool.not_eq_true'] at h
  exact h

/-- `wfMapEntries` of a cons, unpacked. -/
theorem wfMapEntries_cons {k : String} {v : Yaml} {rest : List (String × Yaml)}
    (h : wfMapEntries ((k, v) :: rest) = true) :
    rest.any (fun e => e.1 = k) = false ∧ wfY v = true ∧ wfMapEntries rest = true := by
  rw [wfMapEntries, Bool.and_eq_true, Bool.and_eq_true, Bool.not_eq_true'] at h
  exact ⟨h.1.1, h.1.2, h.2⟩

/-- In a well-formed mapping, every entry is what lookup finds. -/
theorem wfMapEntries_lookup (m : List (String × Yaml)) (hw : wfMapEntries m = true) :
    ∀ p ∈ m, lookupList m p.1 = some p.2 := by
  induction m with
  | nil => intro p hp; cases hp
  | cons hd tl ih =>
      obtain ⟨k1, v1⟩ := hd
      obtain ⟨hany, _, hwtl⟩ := wfMapEntries_cons hw
      intro p hp
      rcases List.mem_cons.mp hp with heq | hmem
      · rw [heq]
        rw [lookupList, if_pos rfl]
      · rw [lookupList]
        by_cases hh : k1 = p.1
        · exfalso
          have : tl.any (fun e => e.1 = k1) = true :=
            List.any_eq_true.mpr ⟨p, hmem, by simpa using hh.symm⟩
          rw [hany] at this
          cases this
        · rw [if_neg hh]
          exact ih hwtl p hmem

/-- In a well-formed mapping, every value is itself well-formed. -/
theorem wfMapEntries_wfY (m : List (String × Yaml)) (hw : wfMapEntries m = true) :
    ∀ p ∈ m, wfY p.2 = true := by
  induction m with
  | nil => intro p hp; cases hp
  | cons hd tl ih =>
      obtain ⟨k1, v1⟩ := hd
      obtain ⟨_, hwv, hwtl⟩ := wfMapEntries_cons hw
      intro p hp
      rcases List.mem_cons.mp hp with heq | hmem
      · rw [heq]
        exact hwv
      · exact ih hwtl p hmem

theorem sizeOf_snd_lt_of_mem {m : List (String × Yaml)} {p : String × Yaml}
    (h : p ∈ m) : sizeOf p.2 < sizeOf m := by
  induction m with
  | nil => cases h
  | cons hd tl ih =>
      rcases List.mem_cons.mp h with heq | hmem
      · obtain ⟨a, b⟩ := hd
        rw [heq]
        simp only [List.cons.sizeOf_spec, Prod.mk.sizeOf_spec]
        omega
      · have := ih hmem
        simp only [List.cons.sizeOf_spec]
        omega

/-- Folding an overlay into a base that already holds every overlay
binding — with the very value its merge yields — leaves the base
unchanged. -/
theorem deepMerge_self_aux :
    ∀ (o base : List (String × Yaml)),
      (∀ p ∈ o, lookupList base p.1 = some p.2) →
      (∀ p ∈ o, mergeVal p.2 p.2 = p.2) →
      deepMerge base o = base := by
  intro o
  induction o with
  | nil => intro base _ _; rw [deepMerge]
  | cons hd rest ih =>
      intro base hlook hmv
      obtain ⟨k, v⟩ := hd
      have hl : lookupList base k = some v := hlook (k, v) (by simp)
      rw [deepMerge, hl]
      show deepMerge (upsertList base k (mergeVal v v)) rest = base
      rw [hmv (k, v) (by simp), upsertList_self base k v hl]
      exact ih base (fun p hp => hlook p (List.mem_cons_of_mem _ hp))
        (fun p hp => hmv p (List.mem_cons_of_mem _ hp))

/-- A well-formed YAML value merged with itself is unchanged. -/
theorem mergeVal_self :
    ∀ (n : Nat) (v : Yaml), sizeOf v ≤ n → wfY v = true → mergeVal v v = v := by
  intro n
  induction n with
  | zero =>
      intro v hv _
      exfalso
      cases v <;> simp_all
  | succ n ih =>
      intro v hv hw
      cases v with
      | nullV => simp [mergeVal]
      | boolV b => simp [mergeVal]
      | intV m => simp [mergeVal]
      | strV s => simp [mergeVal]
      | seq items => simp [mergeVal]
      | map m =>
          rw [mergeVal]
          have hwm : wfMapEntries m = true := by rwa [wfY] at hw
          have : deepMerge m m = m := by
            apply deepMerge_self_aux m m
            · intro p hp
              exact wfMapEntries_lookup m hwm p hp
            · intro p hp
              apply ih p.2 _ (wfMapEntries_wfY m hwm p hp)
              have h1 := sizeOf_snd_lt_of_mem hp
              have h2 : sizeOf (Yaml.map m) ≤ n + 1 := hv
              simp only [Yaml.map.sizeOf_spec] at h2
              omega
          rw [this]

/-- Pointwise description of `deepMerge`: the merged map binds `k` to
the base value when only the base holds `k`, to the overlay value when
only the overlay holds it, and to `mergeVal` of the two when both do. -/
theorem lookup_deepMerge :
    ∀ (o b : List (String × Yaml)) (k : String), nodupKeys o = true →
      lookupList (deepMerge b o) k =
        (match lookupList b k, lookupList o k with
         | some bv, some ov => some (mergeVal bv ov)
         | some bv, none => some bv
         | none, some ov => some ov
         | none, none => none) := by
  intro o
  induction o with
  | nil =>
      intro b k _
      rw [deepMerge]
      cases lookupList b k <;> rfl
  | cons hd rest ih =>
      intro b k hnd
      obtain ⟨k1, v1⟩ := hd
      obtain ⟨hany, hndrest⟩ := nodupKeys_cons hnd
      cases hl : lookupList b k1 with
      | some bv =>
          rw [deepMerge, hl]
          show lookupList (deepMerge (upsertList b k1 (mergeVal bv v1)) rest) k = _
          rw [ih (upsertList b k1 (mergeVal bv v1)) k hndrest]
          by_cases hk : k1 = k
          · subst hk
            rw [lookupList_upsert_self, lookupList_eq_none_of_any_false rest k1 hany,
              hl, lookupList, if_pos rfl]
          · rw [lookupList_upsert_other b k1 k (mergeVal bv v1) hk, lookupList, if_neg hk]
      | none =>
          rw [deepMerge, hl]
          show lookupList (deepMerge (b ++ [(k1, v1)]) rest) k = _
          rw [ih (b ++ [(k1, v1)]) k hndrest]
          by_cases hk : k1 = k
          · subst hk
            rw [lookupList_append_right b [(k1, v1)] k1 hl,
              lookupList_eq_none_of_any_false rest k1 hany, hl]
            simp [lookupList]
          · cases hbk : lookupList b k with
            | some bv =>
                rw [lookupList_append_left b [(k1, v1)] k bv hbk, lookupList, if_neg hk]
            | none =>
                rw [lookupList_append_right b [(k1, v1)] k hbk, lookupList, if_neg hk]
                simp [lookupList, hk]

/-- Claim C10: deep-merge is idempotent on well-formed parsed mappings
— both at the tree level (`deepMerge m m = m`, literal equality, hence
equality after the canonical re-serialization `Merge` performs) and at
the byte level (`Merge(x, x)` re-serializes the parse of `x`) — and,
pointwise at every key present in both inputs, it recurses exactly
when both values are mappings and otherwise replaces the base value
wholesale with the overlay value (sequences and scalars alike). -/
theorem deepMerge_spec
    (parse : List Nat → Except String (List (String × Yaml)))
    (marshal : List (String × Yaml) → List Nat)
    (m b o : List (String × Yaml)) (x : List Nat) (k : String)
    (hm : wfMapEntries m = true) (ho : nodupKeys o = true)
    (hx : parse x = Except.ok m) (hne : x ≠ []) :
    deepMerge m m = m ∧
    mergeBytes parse marshal x x = Except.ok (marshal m) ∧
    lookupList (deepMerge b o) k =
      (match lookupList b k, lookupList o k with
       | some (Yaml.map bm), some (Yaml.map om) => some (Yaml.map (deepMerge bm om))
       | some _, some ov => some ov
       | some bv, none => some bv
       | none, some ov => some ov
       | none, none => none) := by
  have hid : deepMerge m m = m := by
    apply deepMerge_self_aux m m (wfMapEntries_lookup m hm)
    intro p hp
    exact mergeVal_self (sizeOf p.2) p.2 le_rfl (wfMapEntries_wfY m hm p hp)
  have hlen : ¬ x.length = 0 := fun hc => hne (List.length_eq_zero.mp hc)
  refine ⟨hid, ?_, ?_⟩
  · rw [mergeBytes, if_neg hlen, if_neg hlen, hx]
    show Except.ok (marshal (deepMerge m m)) = Except.ok (marshal m)
    rw [hid]
  · rw [lookup_deepMerge o b k ho]
    cases lookupList b k with
    | none => cases lookupList o k <;> rfl
    | some bv =>
        cases lookupList o k with
        | none => cases bv <;> rfl
        | some ov => cases bv <;> cases ov <;> simp [mergeVal]

/-- A two-level well-formed mapping used to exercise `deepMerge`. -/
def sampleYamlMap : List (String × Yaml) :=
  [("a", Yaml.strV "x"), ("svc", Yaml.map [("port", Yaml.intV 1)])]

/-- Witness for C10 at `sampleYamlMap` and key `"svc"`, with a parser
recognizing the byte string `[7]` as that mapping. -/
theorem deepMerge_spec_witness :
    deepMerge sampleYamlMap sampleYamlMap = sampleYamlMap ∧
    mergeBytes (fun c => if c = [7] then Except.ok sampleYamlMap else Except.error "bad")
        (fun _ => [9]) [7] [7] = Except.ok [9] ∧
    lookupList (deepMerge sampleYamlMap sampleYamlMap) "svc"
      = (match lookupList sampleYamlMap "svc", lookupList sampleYamlMap "svc" with
         | some (Yaml.map bm), some (Yaml.map om) => some (Yaml.map (deepMerge bm om))
         | some _, some ov => some ov
         | some bv, none => some bv
         | none, some ov => some ov
         | none, none => none) :=
  deepMerge_spec
    (fun c => if c = [7] then Except.ok sampleYamlMap else Except.error "bad")
    (fun _ => [9]) sampleYamlMap sampleYamlMap sampleYamlMap [7] "svc"
    (by simp [sampleYamlMap, wfMapEntries, wfY]) (by decide) (by rfl) (by decide)

end OpampCP
